import Mathlib

/-
Verification of the HomebrewLite server core against its specification.

The development shallowly embeds the JavaScript sources:
  - bin/jxjDB.js            (recipe store: authorizationCheck, query, modify, save/changed)
  - bin/Extensions2JS.js    (mergekeys, asList, verifyThat -- 2020 version, the one the
                             other modules load)
  - bin/SafeData.js         (scalarSafe, jsonSafe)
  - bin/hbLiteAuth.js       (basic authorization-header parsing)
  - the 2020 proxy module (unnamed part_003: loadSecrets, SNICallback, proxyRouter)

JavaScript values are modelled by the mutual inductive type JSVal below; machine
"numbers" that occur in the verified code paths are integers, so JSVal carries Int
plus an explicit nan constructor for the NaN cases the code produces
(for example Math.abs(undefined)).  External collaborators (the jsonata query
library, Node buffers) enter as explicit function parameters of the embeddings.
All definitions are computable and recursion is structural, so concrete runs of
the embedded code reduce by decide / rfl.
-/

mutual

/-- JavaScript value universe used by the embedding: undefined, null, NaN,
booleans, (integer) numbers, strings, arrays and plain objects. -/
inductive JSVal : Type where
  | undefined : JSVal
  | null : JSVal
  | nan : JSVal
  | bool : Bool → JSVal
  | num : Int → JSVal
  | str : String → JSVal
  | arr : JSList → JSVal
  | obj : JSObj → JSVal

/-- Spine of a JavaScript array value. -/
inductive JSList : Type where
  | nil : JSList
  | cons : JSVal → JSList → JSList

/-- Spine of a JavaScript object value: ordered key/value fields. -/
inductive JSObj : Type where
  | nil : JSObj
  | cons : String → JSVal → JSObj → JSObj

end

mutual

/-- Boolean equality on JSVal (JavaScript strict equality === restricted to the
data values of the model; mirrors comparing decoded JSON values). -/
def JSVal.beq : JSVal → JSVal → Bool
  | .undefined, .undefined => true
  | .null, .null => true
  | .nan, .nan => true
  | .bool a, .bool b => a == b
  | .num a, .num b => a == b
  | .str a, .str b => a == b
  | .arr a, .arr b => JSList.beq a b
  | .obj a, .obj b => JSObj.beq a b
  | _, _ => false

def JSList.beq : JSList → JSList → Bool
  | .nil, .nil => true
  | .cons x xs, .cons y ys => JSVal.beq x y && JSList.beq xs ys
  | _, _ => false

def JSObj.beq : JSObj → JSObj → Bool
  | .nil, .nil => true
  | .cons k1 v1 xs, .cons k2 v2 ys => k1 == k2 && JSVal.beq v1 v2 && JSObj.beq xs ys
  | _, _ => false

end

mutual

theorem JSVal.beq_iff_val : ∀ a b : JSVal, JSVal.beq a b = true ↔ a = b
  | .undefined, b => by cases b <;> simp [JSVal.beq]
  | .null, b => by cases b <;> simp [JSVal.beq]
  | .nan, b => by cases b <;> simp [JSVal.beq]
  | .bool x, b => by cases b <;> simp [JSVal.beq]
  | .num x, b => by cases b <;> simp [JSVal.beq]
  | .str x, b => by cases b <;> simp [JSVal.beq]
  | .arr x, b => by cases b <;> simp [JSVal.beq, JSList.beq_iff_list x]
  | .obj x, b => by cases b <;> simp [JSVal.beq, JSObj.beq_iff_obj x]

theorem JSList.beq_iff_list : ∀ a b : JSList, JSList.beq a b = true ↔ a = b
  | .nil, b => by cases b <;> simp [JSList.beq]
  | .cons x xs, b => by
      cases b <;> simp [JSList.beq, JSVal.beq_iff_val x, JSList.beq_iff_list xs]

theorem JSObj.beq_iff_obj : ∀ a b : JSObj, JSObj.beq a b = true ↔ a = b
  | .nil, b => by cases b <;> simp [JSObj.beq]
  | .cons k x xs, b => by
      cases b <;> simp [JSObj.beq, JSVal.beq_iff_val x, JSObj.beq_iff_obj xs, and_assoc]

end

instance : DecidableEq JSVal := fun a b => decidable_of_iff _ (JSVal.beq_iff_val a b)

instance : DecidableEq JSList := fun a b => decidable_of_iff _ (JSList.beq_iff_list a b)

instance : DecidableEq JSObj := fun a b => decidable_of_iff _ (JSObj.beq_iff_obj a b)

/-- Converts a Lean list of values into a JSList (literal helper only). -/
def jl : List JSVal → JSList
  | [] => .nil
  | x :: xs => .cons x (jl xs)

/-- Converts a Lean association list into a JSObj (literal helper only). -/
def jo : List (String × JSVal) → JSObj
  | [] => .nil
  | (k, v) :: xs => .cons k v (jo xs)

def JSList.length : JSList → Nat
  | .nil => 0
  | .cons _ tl => 1 + JSList.length tl

def JSList.append : JSList → JSList → JSList
  | .nil, ys => ys
  | .cons x xs, ys => .cons x (JSList.append xs ys)

def JSList.any : JSList → (JSVal → Bool) → Bool
  | .nil, _ => false
  | .cons x xs, p => p x || JSList.any xs p

def JSList.containsV : JSList → JSVal → Bool
  | l, v => JSList.any l (fun x => JSVal.beq x v)

/-- JavaScript truthiness: undefined, null, NaN, false, 0 and the empty string
are falsy; every other value (including empty arrays and objects) is truthy. -/
def truthy : JSVal → Bool
  | .undefined => false
  | .null => false
  | .nan => false
  | .bool b => b
  | .num n => n != 0
  | .str s => s != ""
  | .arr _ => true
  | .obj _ => true

/-- JavaScript typeof for the modelled values. -/
def jsTypeof : JSVal → String
  | .undefined => "undefined"
  | .null => "object"
  | .nan => "number"
  | .bool _ => "boolean"
  | .num _ => "number"
  | .str _ => "string"
  | .arr _ => "object"
  | .obj _ => "object"

/-- Ordered first-match field lookup on an object spine. -/
def JSObj.lookupF : JSObj → String → JSVal
  | .nil, _ => .undefined
  | .cons k v tl, key => if k == key then v else JSObj.lookupF tl key

/-- JavaScript property read v[key] for a string key: objects look the field up,
everything else (including arrays, whose non-index properties are not part of
the model) yields undefined. -/
def getF : JSVal → String → JSVal
  | .obj kvs, key => JSObj.lookupF kvs key
  | _, _ => .undefined

def JSObj.setF : JSObj → String → JSVal → JSObj
  | .nil, key, v => .cons key v .nil
  | .cons k w tl, key, v => if k == key then .cons k v tl else .cons k w (JSObj.setF tl key v)

def JSList.getIdx : JSList → Nat → JSVal
  | .nil, _ => .undefined
  | .cons x _, 0 => x
  | .cons _ tl, n + 1 => JSList.getIdx tl n

/-- Writes index i of an array spine; indices beyond the end are created and the
gap is padded with undefined holes, as JavaScript sparse assignment reads back. -/
def JSList.setIdx : JSList → Nat → JSVal → JSList
  | .nil, 0, v => .cons v .nil
  | .nil, n + 1, v => .cons .undefined (JSList.setIdx .nil n v)
  | .cons _ tl, 0, v => .cons v tl
  | .cons x tl, n + 1, v => .cons x (JSList.setIdx tl n v)

/-- JavaScript element read v[i] for a numeric index: arrays index their spine,
strings yield one-character strings, objects look up the decimal key. -/
def jsIdx : JSVal → Nat → JSVal
  | .arr xs, i => JSList.getIdx xs i
  | .obj kvs, i => JSObj.lookupF kvs (toString i)
  | .str s, i =>
      match s.data.drop i with
      | [] => .undefined
      | c :: _ => .str (String.mk [c])
  | _, _ => .undefined

/-- JavaScript a || b. -/
def jsOr (a b : JSVal) : JSVal := if truthy a then a else b

/-- JavaScript strict comparison v === null used by jxjDB.modify. -/
def isNullV : JSVal → Bool
  | .null => true
  | _ => false

/-- The isDefined test of verifyThat: neither undefined nor null. -/
def isDefinedV : JSVal → Bool
  | .undefined => false
  | .null => false
  | _ => true

def isArrV : JSVal → Bool
  | .arr _ => true
  | _ => false

/-- The isObj test of mergekeys: a non-null value of typeof object
(arrays and plain objects in the model). -/
def isObjV : JSVal → Bool
  | .arr _ => true
  | .obj _ => true
  | _ => false

/-
String helpers.  JavaScript string operations used by the verified code are
re-implemented structurally over the character list of the string so that
concrete runs reduce in the kernel.
-/

/-- Splits a character list at every occurrence of the character c
(JavaScript String.prototype.split with a single-character separator:
the result always has at least one, possibly empty, chunk). -/
def splitOnChar (c : Char) : List Char → List (List Char)
  | [] => [[]]
  | x :: xs =>
      if x = c then [] :: splitOnChar c xs
      else
        match splitOnChar c xs with
        | [] => [[x]]
        | y :: ys => (x :: y) :: ys

theorem splitOnChar_ne_nil (c : Char) (l : List Char) : splitOnChar c l ≠ [] := by
  induction l with
  | nil => simp [splitOnChar]
  | cons x xs ih =>
      by_cases h : x = c <;> simp [splitOnChar, h]
      cases hs : splitOnChar c xs <;> simp

theorem splitOnChar_not_mem (c : Char) (l : List Char) (h : c ∉ l) :
    splitOnChar c l = [l] := by
  induction l with
  | nil => simp [splitOnChar]
  | cons x xs ih =>
      simp only [List.mem_cons, not_or] at h
      have hx : ¬ x = c := fun hh => h.1 hh.symm
      simp [splitOnChar, hx, ih h.2]

theorem splitOnChar_append (c : Char) (u v : List Char) (h : c ∉ u) :
    splitOnChar c (u ++ c :: v) = u :: splitOnChar c v := by
  induction u with
  | nil => simp [splitOnChar]
  | cons x xs ih =>
      simp only [List.mem_cons, not_or] at h
      have hx : ¬ x = c := fun hh => h.1 hh.symm
      simp [splitOnChar, hx, ih h.2]

/-- The split of a string on a character, returned as strings. -/
def jsSplit (s : String) (c : Char) : List String :=
  (splitOnChar c s.data).map String.mk

/-- Element i of a JavaScript array destructuring / indexing over a Lean list,
undefined past the end. -/
def listIdx : List String → Nat → Option String
  | [], _ => none
  | x :: _, 0 => some x
  | _ :: xs, n + 1 => listIdx xs n

/-- The text after the first dot of a hostname, as computed by
host.substr(host.indexOf(Chr dot)+1): with no dot present indexOf yields -1 and
substr(0) returns the whole string. -/
def afterFirstDot (host : String) : String :=
  match splitOnChar '.' host.data with
  | [] => host
  | [_] => host
  | _ :: rest => String.intercalate "." (rest.map String.mk)

/-
Embedding of bin/Extensions2JS.js (2020 version, loaded by jxjDB/SafeData).
-/

/-- JavaScript property write this[key] = v in sloppy mode: objects set the
field, arrays set the element when the key is a decimal index (non-index array
properties and writes to primitives are silently invisible to the model). -/
def jsSetF : JSVal → String → JSVal → JSVal
  | .obj kvs, key, v => .obj (JSObj.setF kvs key v)
  | .arr xs, key, v =>
      match key.toNat? with
      | some i => .arr (JSList.setIdx xs i v)
      | none => .arr xs
  | w, _, _ => w

mutual

/-- Embeds Object.prototype.mergekeys of Extensions2JS.js: recursively merge the
keys of merged into self, merged taking precedence.  The source line

  this[key] = this.key || (merged[key] instanceof Array ? [] : {});

reads the literal property named key (not this[key]); the embedding keeps that
behaviour: the initial object for a nested merge is getF self "key". -/
def mergekeys : JSVal → JSVal → JSVal
  | self, .obj kvs => mergeObjKeys self kvs
  | self, .arr xs => mergeArrKeys self 0 xs
  | self, _ => self

/-- The for-in loop of mergekeys over an object operand. -/
def mergeObjKeys : JSVal → JSObj → JSVal
  | self, .nil => self
  | self, .cons k v tl =>
      let self1 :=
        if isObjV v then
          let init := jsOr (getF self "key") (if isArrV v then .arr .nil else .obj .nil)
          jsSetF self k (mergekeys init v)
        else jsSetF self k v
      mergeObjKeys self1 tl

/-- The for-in loop of mergekeys over an array operand enumerates index keys. -/
def mergeArrKeys : JSVal → Nat → JSList → JSVal
  | self, _, .nil => self
  | self, i, .cons v tl =>
      let self1 :=
        if isObjV v then
          let init := jsOr (getF self "key") (if isArrV v then .arr .nil else .obj .nil)
          jsSetF self (toString i) (mergekeys init v)
        else jsSetF self (toString i) v
      mergeArrKeys self1 (i + 1) tl

end

/-- Embeds global asList of Extensions2JS.js:
x instanceof Array ? x : (x || Str empty).split(Chr comma).
A truthy value that is neither an array nor a string would throw at the split
call in JavaScript; that case is unreachable in the verified code paths and the
embedding returns the empty list there. -/
def asList (x : JSVal) : JSList :=
  match x with
  | .arr xs => xs
  | _ =>
      match jsOr x (.str "") with
      | .str s => jl ((jsSplit s ',').map JSVal.str)
      | _ => .nil

/-- Embeds global verifyThat of Extensions2JS.js for the type names the
verified code uses. -/
def verifyThat (v : JSVal) (isType : String) : Bool :=
  match isType with
  | "isTrueObject" =>
      jsTypeof v == "object" && !(isNullV v) && !(isArrV v)
  | "isArray" => isArrV v
  | "isArrayOfTrueObjects" =>
      isArrV v &&
        (jsTypeof (jsIdx v 0) == "object" && !(isNullV (jsIdx v 0)) && !(isArrV (jsIdx v 0)))
  | "isArrayOfAnyObjects" =>
      isArrV v && jsTypeof (jsIdx v 0) == "object"
  | "isArrayOfArrays" => isArrV v && isArrV (jsIdx v 0)
  | "isScalar" => jsTypeof v == "string" || jsTypeof v == "number"
  | "isDefined" => isDefinedV v
  | "isNotDefined" => !(isDefinedV v)
  | _ => false

/-
Embedding of bin/SafeData.js (scalarSafe and the recursive jsonSafe filter).
The possible runtime exceptions (property reads of null/undefined) are made
explicit as Except String.
-/

mutual

def sizeV : JSVal → Nat
  | .arr xs => 1 + sizeL xs
  | .obj kvs => 1 + sizeO kvs
  | _ => 1

def sizeL : JSList → Nat
  | .nil => 0
  | .cons x tl => sizeV x + sizeL tl

def sizeO : JSObj → Nat
  | .nil => 0
  | .cons _ v tl => sizeV v + sizeO tl

end

/-- JavaScript loose equality v == 1, as used by the filter.length==1 test of
jsonSafe.  Values that cannot arise as a length in the verified code paths
(arrays, objects) are given their ToNumber comparison only for the literal
cases the model can express. -/
def looseEqOne : JSVal → Bool
  | .num n => n == 1
  | .bool b => b
  | .str s => s == "1"
  | _ => false

/-- JavaScript loose equality v == true (ToNumber comparison against 1). -/
def looseEqTrue : JSVal → Bool
  | .bool b => b
  | .num n => n == 1
  | .str s => s == "1"
  | _ => false

/-- JavaScript loose inequality pat != the string date, used by the
empty-data early return of scalarSafe. -/
def looseNeqDate : JSVal → Bool
  | .str s => s != "date"
  | _ => true

/-- JavaScript isNaN(v) (ToNumber produces NaN) for the modelled values;
strings are numeric when they spell an optionally signed integer (the model
carries no floats; the float-spelling cases are unreachable in the claims). -/
def jsIsNaN : JSVal → Bool
  | .undefined => true
  | .null => false
  | .nan => true
  | .bool _ => false
  | .num _ => false
  | .str s =>
      !(s == "" || (s.data ≠ [] && s.data.all Char.isDigit) ||
        (match s.data with
         | c :: rest => (c = '-' || c = '+') && rest ≠ [] && rest.all Char.isDigit
         | [] => false))
  | .arr _ => true
  | .obj _ => true

/-- JavaScript parseInt for the modelled values: numbers pass through, strings
parse a leading optionally signed digit run, everything else is NaN. -/
def parseIntJS : JSVal → JSVal
  | .num n => .num n
  | .str s =>
      let core : List Char → JSVal := fun l =>
        match l.takeWhile Char.isDigit with
        | [] => .nan
        | ds => .num (Int.ofNat (String.toNat! (String.mk ds)))
      (match s.data with
       | '-' :: rest =>
           (match core rest with
            | .num n => .num (-n)
            | v => v)
       | '+' :: rest => core rest
       | l => core l)
  | _ => .nan

/-- Models the date branch of scalarSafe: Date parsing/formatting is an
external runtime facility (wall clock and locale), not part of the data model;
the branch is unreachable from every verified claim and returns a fixed epoch
string. -/
def dateStyleModel (_dflt : JSVal) : JSVal := .str "1970-01-01T00:00:00.000Z"

/-- Embeds scalarSafe of SafeData.js.  The final default branch tests
pat instanceof RegExp; regular-expression objects are not data values of the
model (recipe filters in the verified paths never carry them), so that test is
false and the branch returns dflt || the empty string, as the source does for
any non-RegExp pattern. -/
def scalarSafe (data filterV : JSVal) : JSVal :=
  let pat := match filterV with | .arr xs => JSList.getIdx xs 0 | f => f
  let dflt := match filterV with | .arr xs => JSList.getIdx xs 1 | _ => .undefined
  if (data = .undefined ∨ data = .null ∨ data = .str "") ∧ looseNeqDate pat then
    (if dflt = .undefined then data else dflt)
  else if pat = .str "*" then data
  else
    match pat with
    | .str "undefined" => .undefined
    | .str "null" => .null
    | .str "" => jsOr dflt (.str "")
    | .str "boolean" =>
        if data = .bool true ∨ data = .bool false then data else .bool (looseEqTrue dflt)
    | .str "integer" =>
        if jsIsNaN data then parseIntJS (jsOr dflt (.num 0)) else parseIntJS data
    | .str "numeric" =>
        if jsIsNaN data then parseIntJS (jsOr dflt (.num 0)) else parseIntJS data
    | .str "date" => dateStyleModel dflt
    | .str "choice" =>
        let dl : JSList :=
          match dflt with
          | .str s => jl ((jsSplit s ',').map JSVal.str)
          | .arr xs => xs
          | _ => .nil
        if JSList.containsV dl data then data else JSList.getIdx dl 0
    | _ => jsOr dflt (.str "")

/-- The property read filter.length performed by the array branch of jsonSafe;
reading length of undefined or null throws. -/
def jsLengthE : JSVal → Except String JSVal
  | .undefined => .error "TypeError: Cannot read properties of undefined (reading length)"
  | .null => .error "TypeError: Cannot read properties of null (reading length)"
  | .arr xs => .ok (.num (Int.ofNat (JSList.length xs)))
  | .str s => .ok (.num (Int.ofNat s.length))
  | .obj kvs => .ok (JSObj.lookupF kvs "length")
  | _ => .ok .undefined

/-- The iteration count of the longhand loop for (i=0; i<filter.length; i++):
a numeric bound iterates that many times, anything non-numeric compares false
and the loop body never runs. -/
def loopCount : JSVal → Nat
  | .num n => n.toNat
  | .str s => (String.toNat? s).getD 0
  | _ => 0

def forInArr : Nat → JSList → JSObj
  | _, .nil => .nil
  | i, .cons x tl => .cons (toString i) x (forInArr (i + 1) tl)

def forInChars : Nat → List Char → JSObj
  | _, [] => .nil
  | i, c :: tl => .cons (toString i) (.str (String.mk [c])) (forInChars (i + 1) tl)

/-- Enumeration of a value by a JavaScript for-in loop: objects enumerate their
keys, arrays and strings enumerate decimal index keys, primitives nothing. -/
def forIn (v : JSVal) : JSObj :=
  match v with
  | .obj kvs => kvs
  | .arr xs => forInArr 0 xs
  | .str s => forInChars 0 s.data
  | _ => .nil

def JSList.mapE : JSList → (JSVal → Except String JSVal) → Except String JSList
  | .nil, _ => .ok .nil
  | .cons x tl, f =>
      match f x with
      | .error e => .error e
      | .ok y =>
          match JSList.mapE tl f with
          | .error e => .error e
          | .ok ys => .ok (.cons y ys)

def natMapE (f : Nat → Except String JSVal) : Nat → Nat → Except String JSList
  | _, 0 => .ok .nil
  | i, n + 1 =>
      match f i with
      | .error e => .error e
      | .ok y =>
          match natMapE f (i + 1) n with
          | .error e => .error e
          | .ok ys => .ok (.cons y ys)

def JSObj.mapE : JSObj → (String → JSVal → Except String JSVal) → Except String JSObj
  | .nil, _ => .ok .nil
  | .cons k v tl, f =>
      match f k v with
      | .error e => .error e
      | .ok y =>
          match JSObj.mapE tl f with
          | .error e => .error e
          | .ok ys => .ok (.cons k y ys)

/-- Embeds jsonSafe of SafeData.js, fuelled.  Each recursion level strictly
shrinks the jx argument (elements of an array, field values of an object) or
bottoms out in the scalar branch, so a fuel of sizeV jx + 1 never runs out; the
fuel is only a termination device for the Lean definition.  The object branch
reads jx[k] for every filter key, which throws when jx is null (typeof null is
object, so null reaches that branch). -/
def jsonSafeF : Nat → JSVal → JSVal → Except String JSVal
  | 0, _, _ => .error "jsonSafe: fuel exhausted"
  | fuel + 1, jx, filterV =>
      if filterV = .str "*" then .ok jx
      else if jsTypeof jx != "object" then .ok (scalarSafe jx filterV)
      else
        match jx with
        | .arr xs =>
            (match jsLengthE filterV with
             | .error e => .error e
             | .ok lenV =>
                 if looseEqOne lenV then
                   (match JSList.mapE xs (fun x => jsonSafeF fuel x (jsIdx filterV 0)) with
                    | .error e => .error e
                    | .ok ys => .ok (.arr ys))
                 else
                   (match natMapE
                       (fun i => jsonSafeF fuel (jsIdx (.arr xs) i) (jsIdx filterV i))
                       0 (loopCount lenV) with
                    | .error e => .error e
                    | .ok ys => .ok (.arr ys)))
        | _ =>
            (match jx, forIn filterV with
             | .null, .cons _ _ _ =>
                 .error "TypeError: Cannot read properties of null"
             | _, kvs =>
                 (match JSObj.mapE kvs (fun k fv => jsonSafeF fuel (getF jx k) fv) with
                  | .error e => .error e
                  | .ok out => .ok (.obj out)))

/-- The jsonSafe entry point (exported as jsonSafe, used by jxjDB as safeJSON). -/
def jsonSafe (jx filterV : JSVal) : Except String JSVal :=
  jsonSafeF (sizeV jx + 1) jx filterV

instance {α : Type} [DecidableEq α] : DecidableEq (Except String α) := fun a b =>
  match a, b with
  | .error x, .error y => if h : x = y then .isTrue (by simp [h]) else .isFalse (by simp [h])
  | .ok x, .ok y => if h : x = y then .isTrue (by simp [h]) else .isFalse (by simp [h])
  | .error _, .ok _ => .isFalse (by simp)
  | .ok _, .error _ => .isFalse (by simp)

/-
Embedding of bin/jxjDB.js.  The jsonata query library is an external
collaborator: expression evaluation enters as the oracle parameter
E expression data bindings, returning a value or the thrown message.
Recipes are passed as objects (the string recipeSpec branch goes through the
jsonata-based lookup and is outside the verified claims).
-/

/-- JavaScript template/property stringification of a value used where the
source interpolates or indexes with recipe.collection. -/
def jsToStr : JSVal → String
  | .str s => s
  | .num n => toString n
  | .bool b => if b then "true" else "false"
  | .undefined => "undefined"
  | .null => "null"
  | .nan => "NaN"
  | .arr _ => ""
  | .obj _ => ""

/-- Embeds jxjDB.prototype.authorizationCheck: pass when allowed is undefined;
a boolean auth is returned as is; otherwise the two lists (arrays or comma
delimited strings) must intersect. -/
def authorizationCheck (allowed auth : JSVal) : Bool :=
  match allowed with
  | .undefined => true
  | _ =>
      match auth with
      | .bool b => b
      | _ => JSList.any (asList auth) (fun a => JSList.containsV (asList allowed) a)

/-- Shallow copy Object.assign(target empty, v): objects copy their fields,
arrays and strings contribute index-keyed fields, primitives nothing. -/
def objAssignCopy : JSVal → JSVal
  | .obj kvs => .obj kvs
  | .arr xs => .obj (forInArr 0 xs)
  | .str s => .obj (forInChars 0 s.data)
  | _ => .obj .nil

/-- Embeds jxjDB.prototype.defaults: Object.assign of the evaluation of the
jsonata path _.defaults.<collection> against the database, which on a plain
object tree is plain field navigation. -/
def defaultsOf (db : JSVal) (collection : String) : JSVal :=
  objAssignCopy (getF (getF (getF db "_") "defaults") collection)

mutual

/-- JSON.parse of JSON.stringify of a value, the defensive deep copy performed
by jxjDB.query: NaN serializes as null, undefined array elements become null
and undefined object fields are dropped. -/
def jsonRT : JSVal → JSVal
  | .nan => .null
  | .arr xs => .arr (jsonRTL xs)
  | .obj kvs => .obj (jsonRTO kvs)
  | v => v

def jsonRTL : JSList → JSList
  | .nil => .nil
  | .cons .undefined tl => .cons .null (jsonRTL tl)
  | .cons x tl => .cons (jsonRT x) (jsonRTL tl)

def jsonRTO : JSObj → JSObj
  | .nil => .nil
  | .cons _ .undefined tl => jsonRTO tl
  | .cons k v tl => .cons k (jsonRT v) (jsonRTO tl)

end

/-- JavaScript Math.abs for the modelled values: Math.abs(undefined) is NaN,
which is the value the limit guard of query actually compares against. -/
def mathAbs : JSVal → JSVal
  | .num n => .num (Int.ofNat n.natAbs)
  | .null => .num 0
  | .bool b => .num (if b then 1 else 0)
  | .undefined => .nan
  | .nan => .nan
  | .str s => if jsIsNaN (.str s) then .nan else
      (match parseIntJS (.str s) with
       | .num n => .num (Int.ofNat n.natAbs)
       | _ => .nan)
  | _ => .nan

/-- JavaScript numeric comparison a > b: false whenever either side is not a
number (in particular against NaN). -/
def jsGTnum : JSVal → JSVal → Bool
  | .num a, .num b => a > b
  | _, _ => false

/-- JavaScript numeric comparison a < b, same conventions. -/
def jsLTnum : JSVal → JSVal → Bool
  | .num a, .num b => a < b
  | _, _ => false

def JSList.take : JSList → Nat → JSList
  | _, 0 => .nil
  | .nil, _ => .nil
  | .cons x tl, n + 1 => .cons x (JSList.take tl n)

def JSList.drop : JSList → Nat → JSList
  | xs, 0 => xs
  | .nil, _ => .nil
  | .cons _ tl, n + 1 => JSList.drop tl n

/-- Array.prototype.slice(n) for negative n: the last |n| elements
(the whole array when |n| exceeds the length). -/
def sliceFromEnd (xs : JSList) (limitV : JSVal) : JSList :=
  match limitV with
  | .num n =>
      let len : Int := Int.ofNat (JSList.length xs)
      JSList.drop xs (max (len + n) 0).toNat
  | _ => xs

/-- Array.prototype.slice(0, n): the first n elements (empty for a
non-positive or non-numeric bound). -/
def sliceFirst (xs : JSList) (limitV : JSVal) : JSList :=
  match limitV with
  | .num n => JSList.take xs n.toNat
  | _ => .nil

/-- Embeds jxjDB.prototype.query.  The truncation guard of the source reads

  if (recipe.limit && (tmp.length>Math.abs(recipe.limt))) ...

with the field name limt (not limit); the embedding reads the same field, so
the guard compares the length against Math.abs(undefined) = NaN whenever the
recipe carries no field literally called limt. -/
def query (E : JSVal → JSVal → JSVal → Except String JSVal)
    (db recipe bindings auth : JSVal) : JSVal :=
  if truthy (getF recipe "name") then
    if authorizationCheck (getF recipe "auth") auth then
      match E (getF recipe "expression") db bindings with
      | .error _ => .undefined
      | .ok tmp0 =>
          if verifyThat tmp0 "isDefined" then
            match jsonRT (jsOr (jsOr tmp0 (getF recipe "empty")) (.obj .nil)) with
            | .arr xs =>
                let xs1 :=
                  if truthy (getF recipe "limit")
                      && jsGTnum (.num (Int.ofNat (JSList.length xs)))
                          (mathAbs (getF recipe "limt")) then
                    (if jsLTnum (getF recipe "limit") (.num 0)
                     then sliceFromEnd xs (getF recipe "limit")
                     else sliceFirst xs (getF recipe "limit"))
                  else xs
                let xs2 :=
                  if truthy (getF recipe "header")
                  then JSList.cons (getF recipe "header") xs1
                  else xs1
                .arr xs2
            | t => t
          else jsOr (getF recipe "empty") (.obj .nil)
    else jsOr (getF recipe "empty") (.obj .nil)
  else jsOr (getF recipe "empty") (.obj .nil)

/-- The reference lookup of one modify item: jsonata(recipe.reference) is
evaluated with the binding ref when the recipe declares a reference rule,
otherwise the source uses null. -/
def resolveRef (E : JSVal → JSVal → JSVal → Except String JSVal)
    (recipe db ref : JSVal) : Except String JSVal :=
  if truthy (getF recipe "reference")
  then E (getF recipe "reference") db (.obj (.cons "ref" ref .nil))
  else .ok .null

/-- Array element write this.db[collection][index] = v: numeric indices write
the spine (sparse holes read back as undefined), anything else is a non-index
property assignment invisible to the array model; writing to undefined or null
throws. -/
def setAtIndex (xs : JSList) (idxV v : JSVal) : JSVal :=
  match idxV with
  | .num n => if n < 0 then .arr xs else .arr (JSList.setIdx xs n.toNat v)
  | _ => .arr xs

/-- The write target[index] = v of the change path: arrays write numeric
indices, objects write the stringified key, primitives ignore the write. -/
def setAtProp (t idxV v : JSVal) : JSVal :=
  match t with
  | .arr xs => setAtIndex xs idxV v
  | other => jsSetF other (jsToStr idxV) v

/-- Array.prototype.splice(start, 1) removing one element, with the negative
and beyond-the-end start conventions of JavaScript; a non-numeric start
coerces to 0. -/
def spliceRemove (xs : JSList) (idxV : JSVal) : JSList :=
  let len : Int := Int.ofNat (JSList.length xs)
  let start : Int := match idxV with | .num n => n | _ => 0
  let s : Nat := (if start < 0 then max (len + start) 0 else min start len).toNat
  JSList.append (JSList.take xs s) (JSList.drop xs (s + 1))

/-- One iteration of the modify loop of jxjDB.js over a batch entry d, at
store state db.  Returns the entry pushed onto results (an outcome tuple, or
the thrown message as a string: the loop body is wrapped in try/catch) together
with the new store state.  The this.changed() debounce calls of the source only
touch the save timer, which is modelled separately by SaveState. -/
def processItem (E : JSVal → JSVal → JSVal → Except String JSVal)
    (recipe defaults db d : JSVal) : JSVal × JSVal :=
  let ref := jsOr (jsOr (getF d "ref") (jsIdx d 0)) (.str "")
  match jsonSafe (jsOr (jsOr (getF d "record") (jsIdx d 1)) .null) (getF recipe "filter") with
  | .error e => (.str e, db)
  | .ok record =>
      match resolveRef E recipe db ref with
      | .error e => (.str e, db)
      | .ok ex0 =>
          let existing := jsOr ex0 (.obj (.cons "index" .null (.cons "record" defaults .nil)))
          let coll := jsToStr (getF recipe "collection")
          if isDefinedV record then
            let newRecord :=
              if isArrV defaults then record
              else mergekeys (mergekeys (.obj .nil) (getF existing "record")) record
            if isNullV (getF existing "index") then
              (match getF db coll with
               | .arr xs =>
                   (.arr (jl [.str "add", ref, .num (Int.ofNat (JSList.length xs))]),
                    jsSetF db coll (.arr (JSList.append xs (.cons newRecord .nil))))
               | .undefined => (.str "TypeError: Cannot read properties of undefined (reading push)", db)
               | .null => (.str "TypeError: Cannot read properties of null (reading push)", db)
               | _ => (.str "TypeError: this.db[recipe.collection].push is not a function", db))
            else
              (match getF db coll with
               | .undefined => (.str "TypeError: Cannot set properties of undefined", db)
               | .null => (.str "TypeError: Cannot set properties of null", db)
               | t =>
                   (.arr (jl [.str "change", ref, getF existing "index"]),
                    jsSetF db coll (setAtProp t (getF existing "index") newRecord)))
          else
            if isNullV (getF existing "index") then
              (.arr (jl [.str "delete", ref, .null]), db)
            else
              (match getF db coll with
               | .arr xs =>
                   (.arr (jl [.str "delete", ref, getF existing "index"]),
                    jsSetF db coll (.arr (spliceRemove xs (getF existing "index"))))
               | .undefined => (.str "TypeError: Cannot read properties of undefined (reading splice)", db)
               | .null => (.str "TypeError: Cannot read properties of null (reading splice)", db)
               | _ => (.str "TypeError: this.db[recipe.collection].splice is not a function", db))

/-- The for-of loop of modify over the batch, threading the store state and
collecting one results entry per item. -/
def modifyItems (E : JSVal → JSVal → JSVal → Except String JSVal)
    (recipe defaults : JSVal) : JSVal → JSList → JSList × JSVal
  | db, .nil => (.nil, db)
  | db, .cons d tl =>
      let r := processItem E recipe defaults db d
      let rest := modifyItems E recipe defaults r.2 tl
      (.cons r.1 rest.1, rest.2)

/-- Embeds jxjDB.prototype.modify, returning the JavaScript return value
(results array, null for a bad recipe or bad data shape, undefined when not
authorized) together with the final store state. -/
def jxjDB.modify (E : JSVal → JSVal → JSVal → Except String JSVal)
    (db recipe data auth : JSVal) : JSVal × JSVal :=
  if truthy (getF recipe "name") then
    if authorizationCheck (getF recipe "auth") auth then
      if verifyThat data "isArrayOfAnyObjects" then
        let defaults := jsOr (defaultsOf db (jsToStr (getF recipe "collection"))) (.obj .nil)
        match data with
        | .arr items =>
            let out := modifyItems E recipe defaults db items
            (.arr out.1, out.2)
        | _ => (.null, db)
      else (.null, db)
    else (.undefined, db)
  else (.null, db)

/-
Embedding of the persistence discipline of jxjDB.js (save and changed).
The Node runtime effects are made explicit as a small state:
  timex           the stored timer handle (this.timex)
  active          the set of scheduled-and-not-yet-fired debounce timers
  nextId          fresh timer handle supply of setTimeout
  inFlight        fsp.writeFile operations started and not yet completed
  writesStarted   total fsp.writeFile operations started
-/

structure SaveState where
  timex : Option Nat
  active : List Nat
  nextId : Nat
  inFlight : Nat
  writesStarted : Nat
  deriving DecidableEq

/-- Embeds jxjDB.prototype.changed:
clearTimeout(this.timex); this.timex = setTimeout(save, delay). -/
def jxjDB.changed (s : SaveState) : SaveState :=
  let cleared := s.active.filter (fun t => !(s.timex = some t))
  { s with
    active := cleared ++ [s.nextId],
    timex := some s.nextId,
    nextId := s.nextId + 1 }

/-- Embeds jxjDB.prototype.save: a no-op for in-memory or read-only stores,
otherwise it starts an asynchronous fsp.writeFile immediately -- the source
consults no in-progress flag before writing. -/
def jxjDB.save (inMemory readOnly : Bool) (s : SaveState) : SaveState :=
  if inMemory || readOnly then s
  else { s with inFlight := s.inFlight + 1, writesStarted := s.writesStarted + 1 }

/-- The runtime firing a pending debounce timer t: the timer leaves the
pending set and its callback runs save. -/
def fireTimer (inMemory readOnly : Bool) (t : Nat) (s : SaveState) : SaveState :=
  if s.active.contains t
  then jxjDB.save inMemory readOnly { s with active := s.active.filter (fun u => !(u = t)) }
  else s

/-- Completion of one outstanding fsp.writeFile. -/
def writeDone (s : SaveState) : SaveState :=
  { s with inFlight := s.inFlight - 1 }

/-
Embedding of the 2020 secure proxy module (unnamed part_003).
-/

/-- Result of tls.createSecureContext over the in-memory secret bundle; the
constructor is injective, so equal contexts come from equal secrets. -/
structure TLSContext where
  secrets : JSVal
  deriving DecidableEq

/-- The mutable secure state of one proxy instance (this.secure together with
a rebuild counter observing each tls.createSecureContext call). -/
structure SecureState where
  changed : Bool
  secrets : JSVal
  context : Option TLSContext
  rebuilds : Nat
  deriving DecidableEq

/-- The finalizing step of Proxy.prototype.loadSecrets once every configured
file has been read: this.secure.secrets = secrets; this.secure.changed = true.
The preceding asynchronous file reads only build the local secrets object and
do not touch the shared state. -/
def loadSecretsFinalize (newSecrets : JSVal) (s : SecureState) : SecureState :=
  { s with secrets := newSecrets, changed := true }

/-- Embeds the SNICB closure returned by Proxy.prototype.SNICallback: on a set
changed flag it clears the flag, rebuilds the security context from the
current secrets and counts the rebuild; it always hands back the (possibly
just rebuilt) cached context.  The callback body is synchronous, so one
invocation is one atomic step of the event loop. -/
def SNICB (s : SecureState) : SecureState × Option TLSContext :=
  if s.changed then
    let s1 : SecureState :=
      { s with changed := false, context := some ⟨s.secrets⟩, rebuilds := s.rebuilds + 1 }
    (s1, s1.context)
  else (s, s.context)

/-- State after n further SNICB invocations. -/
def iterSNICB : Nat → SecureState → SecureState
  | 0, s => s
  | n + 1, s => iterSNICB n (SNICB s).1

/-- Embeds the route lookup of the proxy router:
self.cfg.routes[host] || self.cfg.routes[Str star dot + host.substr(host.indexOf(Chr dot)+1)]. -/
def proxyRoute (routes : JSVal) (host : String) : JSVal :=
  jsOr (getF routes host) (getF routes ("*." ++ afterFirstDot host))

/-- All suffixes of a character list (each starting position of the string). -/
def listSuffixes : List Char → List (List Char)
  | [] => [[]]
  | c :: tl => (c :: tl) :: listSuffixes tl

def isDigits (l : List Char) : Bool := l ≠ [] && l.all Char.isDigit

/-- Exact match of the pattern (?:192\.168|127\.\d+|10\.\d+|169\.254)\.\d+\.\d+
against a whole character list. -/
def localCoreMatch (l : List Char) : Bool :=
  match (splitOnChar '.' l).map String.mk with
  | ["192", "168", a, b] => isDigits a.data && isDigits b.data
  | ["127", a, b, c] => isDigits a.data && isDigits b.data && isDigits c.data
  | ["10", a, b, c] => isDigits a.data && isDigits b.data && isDigits c.data
  | ["169", "254", a, b] => isDigits a.data && isDigits b.data
  | _ => false

/-- Embeds ip.match(/(?:192\.168|127\.\d+|10\.\d+|169\.254)\.\d+\.\d+$/):
the pattern is anchored at the end only, so it matches whenever any suffix of
the address matches the core pattern exactly. -/
def localIPMatch (ip : String) : Bool :=
  (listSuffixes ip.data).any localCoreMatch

/-- Outcome of one proxyRouter invocation: the resolved route (undefined when
none), whether the request was forwarded and the served counter bumped,
whether the probe counter was bumped, and whether the reply was simply ended
(the no-route branch writes no status: invalid routes close the connection). -/
structure RouteOutcome where
  route : JSVal
  served : Bool
  probeInc : Bool
  closedOnly : Bool
  deriving DecidableEq

/-- The host extraction of the proxy router:
rqst.headers.host.split(Chr colon)[0] || the empty string. -/
def hostOf (hostHeader : String) : String :=
  match jsSplit hostHeader ':' with
  | [] => ""
  | h :: _ => if h == "" then "" else h

/-- Embeds the proxyRouter closure of the 2020 proxy: extract the host from
the Host header, resolve the route table with wildcard fallback, and on a
miss count a probe unless the source address matches the local-range pattern
and verbose is unset; invalid routes only close the connection. -/
def proxyRouter (routes : JSVal) (verbose : Bool) (hostHeader ip : String) : RouteOutcome :=
  let route := proxyRoute routes (hostOf hostHeader)
  if truthy route then
    { route := route, served := true, probeInc := false, closedOnly := false }
  else
    let localIP := localIPMatch ip
    { route := .undefined,
      served := false,
      probeInc := !localIP || verbose,
      closedOnly := true }

/-- The address classification the specification describes, written from the
words of the claim: the source address is in a private or loopback range
192.168.x.x, 127.x.x.x, 10.x.x.x or 169.254.x.x (a full-address match).
This definition follows the claim text, for comparison with the code's
localIPMatch. -/
def specPrivateRange (ip : String) : Bool := localCoreMatch ip.data

/-
Embedding of the basic-authorization parser of bin/hbLiteAuth.js.  Node's
Buffer base64 decoding is the external collaborator dec.
-/

/-- Credentials returned by Auth.prototype.basic; either part is undefined
when the corresponding destructured split element is missing. -/
structure BasicCreds where
  user : JSVal
  pw : JSVal
  deriving DecidableEq

/-- Embeds Auth.prototype.basic:

  let [method, b64] = header.split(Chr space);
  let [user,pw] = method.toLowerCase()==Str basic ? new Buffer(b64,Str base64).toString().split(Chr colon) : [Str empty,Str empty];
  return {user:user, pw:pw}

split produces every colon-separated chunk and the destructuring keeps the
first two; decoding an absent b64 part throws. -/
def basic (dec : String → String) (header : String) : Except String BasicCreds :=
  let parts := jsSplit header ' '
  match listIdx parts 0 with
  | none => .error "TypeError: header is not a string"
  | some method =>
      if String.mk (method.data.map Char.toLower) == "basic" then
        match listIdx parts 1 with
        | none => .error "TypeError: first argument must be a string, Buffer, ArrayBuffer, Array, or Array-like Object"
        | some b64 =>
            let chunks := jsSplit (dec b64) ':'
            .ok { user := match listIdx chunks 0 with | some u => .str u | none => .undefined,
                  pw := match listIdx chunks 1 with | some p => .str p | none => .undefined }
      else .ok { user := .str "", pw := .str "" }

/-
Supporting lemmas.
-/

theorem JSList.any_exists : ∀ (l : JSList) (p : JSVal → Bool),
    JSList.any l p = true ↔ ∃ x, JSList.containsV l x = true ∧ p x = true
  | .nil, p => by simp [JSList.any, JSList.containsV]
  | .cons y tl, p => by
      have ih := JSList.any_exists tl p
      have hcons : ∀ (q : JSVal → Bool), JSList.any (.cons y tl) q = (q y || JSList.any tl q) :=
        fun q => rfl
      constructor
      · intro h
        rw [hcons, Bool.or_eq_true] at h
        rcases h with hy | htl
        · refine ⟨y, ?_, hy⟩
          show JSList.any (.cons y tl) (fun z => JSVal.beq z y) = true
          rw [hcons, Bool.or_eq_true]
          exact Or.inl ((JSVal.beq_iff_val y y).mpr rfl)
        · obtain ⟨x, hx, hpx⟩ := ih.mp htl
          refine ⟨x, ?_, hpx⟩
          show JSList.any (.cons y tl) (fun z => JSVal.beq z x) = true
          rw [hcons, Bool.or_eq_true]
          exact Or.inr hx
      · rintro ⟨x, hx, hpx⟩
        have hx2 : (JSVal.beq y x || JSList.any tl (fun z => JSVal.beq z x)) = true := hx
        rw [hcons, Bool.or_eq_true]
        rw [Bool.or_eq_true] at hx2
        rcases hx2 with hx2 | hx2
        · exact Or.inl (by rwa [(JSVal.beq_iff_val y x).mp hx2])
        · exact Or.inr (ih.mpr ⟨x, hx2, hpx⟩)

theorem iterSNICB_of_not_changed (n : Nat) (s : SecureState) (h : s.changed = false) :
    iterSNICB n s = s := by
  induction n with
  | zero => rfl
  | succ m ih => simp [iterSNICB, SNICB, h, ih]

theorem modifyItems_length (E : JSVal → JSVal → JSVal → Except String JSVal)
    (recipe defaults : JSVal) :
    ∀ (items : JSList) (db : JSVal),
      JSList.length (modifyItems E recipe defaults db items).1 = JSList.length items
  | .nil, db => rfl
  | .cons d tl, db => by
      have ih := modifyItems_length E recipe defaults tl
        (processItem E recipe defaults db d).2
      simp [modifyItems, JSList.length, ih]

/-- Route tables map hostnames to target objects. -/
def objValsOnly : JSObj → Bool
  | .nil => true
  | .cons _ v tl => isObjV v && objValsOnly tl

theorem lookup_objValsOnly : ∀ (kvs : JSObj), objValsOnly kvs = true → ∀ (k : String),
    JSObj.lookupF kvs k = .undefined ∨ isObjV (JSObj.lookupF kvs k) = true
  | .nil, _, _ => Or.inl rfl
  | .cons k1 v tl, h, k => by
      simp only [objValsOnly, Bool.and_eq_true] at h
      by_cases hk : k1 == k
      · exact Or.inr (by simp [JSObj.lookupF, hk, h.1])
      · simpa [JSObj.lookupF, hk] using lookup_objValsOnly tl h.2 k

theorem truthy_of_isObjV (v : JSVal) (h : isObjV v = true) : truthy v = true := by
  cases v <;> simp_all [isObjV, truthy]

theorem localIPMatch_of_core (ip : String) (h : localCoreMatch ip.data = true) :
    localIPMatch ip = true := by
  unfold localIPMatch
  cases hd : ip.data with
  | nil => rw [hd] at h; simp [listSuffixes, h]
  | cons c tl => rw [hd] at h; simp [listSuffixes, h]

/-
Claim C1.
-/

/-- Claim C1: after loadSecrets completes (swapping the secret bundle and
setting the changed flag), the first SNI handshake callback rebuilds the TLS
security context exactly once -- from the newly loaded secrets -- and clears
the flag; any burst of n further callback invocations leaves the whole secure
state (including the rebuild counter) untouched and keeps returning the cached
context.  The callback body is synchronous JavaScript, so successive
invocations of the single-threaded event loop are exactly this iteration. -/
theorem C1_sni_rebuild_once (s : SecureState) (secrets2 : JSVal) (n : Nat) :
    ((SNICB (loadSecretsFinalize secrets2 s)).1).rebuilds = s.rebuilds + 1
  ∧ ((SNICB (loadSecretsFinalize secrets2 s)).1).changed = false
  ∧ (SNICB (loadSecretsFinalize secrets2 s)).2 = some ⟨secrets2⟩
  ∧ iterSNICB n ((SNICB (loadSecretsFinalize secrets2 s)).1)
      = (SNICB (loadSecretsFinalize secrets2 s)).1
  ∧ (SNICB (iterSNICB n ((SNICB (loadSecretsFinalize secrets2 s)).1))).2 = some ⟨secrets2⟩ := by
  have h1 : (SNICB (loadSecretsFinalize secrets2 s)).1.changed = false := by
    simp [SNICB, loadSecretsFinalize]
  refine ⟨by simp [SNICB, loadSecretsFinalize], h1, by simp [SNICB, loadSecretsFinalize], ?_, ?_⟩
  · exact iterSNICB_of_not_changed n _ h1
  · rw [iterSNICB_of_not_changed n _ h1]
    simp [SNICB, loadSecretsFinalize]

/-
Claim C2.
-/

def targetX : JSVal := .obj (jo [("host", .str "x"), ("port", .num 8001)])

def targetY : JSVal := .obj (jo [("host", .str "y"), ("port", .num 8002)])

def routesAB : JSObj := jo [("a.example.com", targetX), ("*.example.com", targetY)]

/-- Claim C2: proxy route resolution prefers the exact hostname entry and uses
the star-dot parent-domain wildcard entry exactly when no exact entry exists;
on the route table a.example.com to X with *.example.com to Y, host
a.example.com resolves to X and host b.example.com resolves to Y. -/
theorem C2_route_wildcard_precedence (kvs : JSObj) (host : String)
    (hvals : objValsOnly kvs = true) :
    (JSObj.lookupF kvs host ≠ .undefined →
        proxyRoute (.obj kvs) host = JSObj.lookupF kvs host)
  ∧ (JSObj.lookupF kvs host = .undefined →
        proxyRoute (.obj kvs) host = JSObj.lookupF kvs ("*." ++ afterFirstDot host))
  ∧ proxyRoute (.obj routesAB) "a.example.com" = targetX
  ∧ proxyRoute (.obj routesAB) "b.example.com" = targetY := by
  refine ⟨?_, ?_, by decide, by decide⟩
  · intro hne
    rcases lookup_objValsOnly kvs hvals host with h | h
    · exact absurd h hne
    · simp [proxyRoute, getF, jsOr, truthy_of_isObjV _ h]
  · intro hud
    simp [proxyRoute, getF, jsOr, hud, truthy]

/-- Claim C2 witness: the theorem applied to the concrete two-entry route
table of the claim. -/
theorem C2_route_wildcard_precedence_witness :
    proxyRoute (.obj routesAB) "a.example.com" = JSObj.lookupF routesAB "a.example.com"
  ∧ proxyRoute (.obj routesAB) "b.example.com"
      = JSObj.lookupF routesAB ("*." ++ afterFirstDot "b.example.com") := by
  have h := C2_route_wildcard_precedence routesAB "a.example.com" (by decide)
  have h2 := C2_route_wildcard_precedence routesAB "b.example.com" (by decide)
  exact ⟨h.1 (by decide), h2.2.1 (by decide)⟩

/-
Claim C3.
-/

/-- Claim C3 counterexample: the claim also asserts that a caller whose group
set contains admin is always permitted; authorizationCheck has no admin
override, so a recipe allowing only the users group denies the caller whose
only group is admin. -/
theorem C3_admin_counterexample :
    authorizationCheck (.arr (jl [.str "users"])) (.arr (jl [.str "admin"])) = false := by
  decide

/-- Claim C3 as amended: recipe authorization is monotonic in the caller group
list (any superset of a permitted group list is permitted), and a caller whose
only group is admin is permitted exactly when admin is among the recipe's
allowed groups -- there is no blanket admin override in authorizationCheck. -/
theorem C3_recipe_auth_monotonic :
    (∀ (allowed : JSVal) (A B : JSList),
        (∀ v, JSList.containsV A v = true → JSList.containsV B v = true) →
        authorizationCheck allowed (.arr A) = true →
        authorizationCheck allowed (.arr B) = true)
  ∧ (∀ G : JSList,
        authorizationCheck (.arr G) (.arr (jl [.str "admin"]))
          = JSList.containsV G (.str "admin")) := by
  constructor
  · intro allowed A B hsub hA
    cases allowed
    case undefined => rfl
    all_goals
      simp only [authorizationCheck, asList] at hA ⊢
    all_goals
      rw [JSList.any_exists] at hA ⊢
    all_goals
      obtain ⟨x, hx, hpx⟩ := hA
    all_goals
      exact ⟨x, hsub x hx, hpx⟩
  · intro G
    simp [authorizationCheck, asList, jl, JSList.any]

/-- Claim C3 witness: monotonicity applied at a concrete allowed list, caller
group list and superset. -/
theorem C3_recipe_auth_monotonic_witness :
    authorizationCheck (.arr (jl [.str "users"]))
      (.arr (jl [.str "guests", .str "users"])) = true := by
  refine C3_recipe_auth_monotonic.1 (.arr (jl [.str "users"]))
    (jl [.str "users"]) (jl [.str "guests", .str "users"]) ?_ (by decide)
  intro v hv
  have hb : JSVal.beq (.str "users") v = true := by
    simpa [jl, JSList.containsV, JSList.any] using hv
  rw [← (JSVal.beq_iff_val (.str "users") v).mp hb]
  decide

/-
Claim C4.
-/

/-- Expression oracle for the limit demonstration: the recipe expression
evaluates to the three-element sequence 1, 2, 3. -/
def evalThree : JSVal → JSVal → JSVal → Except String JSVal :=
  fun _ _ _ => .ok (.arr (jl [.num 1, .num 2, .num 3]))

/-- A recipe declaring limit 2 over that expression. -/
def recipeLimitTwo : JSVal :=
  .obj (jo [("name", .str "r"), ("expression", .str "c"), ("limit", .num 2)])

/-- Claim C4 evaluated at the failing input: the authorized query evaluates to
the array 1, 2, 3 and the recipe declares limit = 2, yet query returns the
full three-element array.  The guard of the truncation step reads
recipe.limt (a misspelling of recipe.limit, the field the rest of the line
uses), so it compares the length against Math.abs(undefined) = NaN, which is
never true, and the truncation the specification describes is unreachable. -/
theorem C4_query_limit_ignored :
    truthy (getF recipeLimitTwo "limit") = true
  ∧ getF recipeLimitTwo "limt" = .undefined
  ∧ query evalThree (.obj .nil) recipeLimitTwo .null (.bool true)
      = .arr (jl [.num 1, .num 2, .num 3]) := by
  decide

/-
Claim C5.
-/

/-- The existing stored record of the change demonstration. -/
def existingRec : JSVal := .obj (jo [("b", .num 2), ("o", .obj (jo [("x", .num 5)]))])

/-- Store for the change demonstration: collection c holds one record and the
schema section declares the collection default a = 1. -/
def dbChange : JSVal := .obj (jo [
  ("_", .obj (jo [("defaults", .obj (jo [("c", .obj (jo [("a", .num 1)]))]))])),
  ("c", .arr (jl [existingRec]))])

/-- Reference oracle resolving every ref to the existing record at index 0. -/
def evalFindsIdx0 : JSVal → JSVal → JSVal → Except String JSVal :=
  fun _ _ _ => .ok (.obj (jo [("index", .num 0), ("record", existingRec)]))

/-- Recipe for the change demonstration; filter star passes the payload
through unfiltered. -/
def recipeChange : JSVal := .obj (jo [("name", .str "r"), ("collection", .str "c"),
  ("filter", .str "*"), ("reference", .str "refexpr")])

/-- The new record of the change demonstration. -/
def newRec : JSVal := .obj (jo [("c3", .num 3), ("o", .obj (jo [("y", .num 7)]))])

/-- What the store holds after the change: the collection defaults (a = 1) are
absent, and the nested object o lost the existing field x. -/
def storedRec : JSVal :=
  .obj (jo [("b", .num 2), ("o", .obj (jo [("y", .num 7)])), ("c3", .num 3)])

def dbChangeOut : JSVal := .obj (jo [
  ("_", .obj (jo [("defaults", .obj (jo [("c", .obj (jo [("a", .num 1)]))]))])),
  ("c", .arr (jl [storedRec]))])

/-- Claim C5 evaluated at the failing input: a change item whose ref resolves
to the existing record b = 2, o = (x = 5), with collection default a = 1 and
new record c3 = 3, o = (y = 7).  The claim (merge defaults, then existing,
then new, recursively) requires the stored record
a = 1, b = 2, c3 = 3, o = (x = 5, y = 7); the code stores
b = 2, o = (y = 7), c3 = 3: the change path of modify merges only the
existing record with the new one (defaults are not consulted), and the line
this[key] = this.key || ... of mergekeys reinitializes every nested object,
so nested merges replace instead of merging.  The outcome tuple
(change, ref, index) itself is as described. -/
theorem C5_change_merge_at_failing_input :
    jxjDB.modify evalFindsIdx0 dbChange recipeChange
      (.arr (jl [.obj (jo [("ref", .str "k"), ("record", newRec)])])) (.bool true)
      = (.arr (jl [.arr (jl [.str "change", .str "k", .num 0])]), dbChangeOut)
  ∧ storedRec ≠ .obj (jo [("a", .num 1), ("b", .num 2), ("c3", .num 3),
      ("o", .obj (jo [("x", .num 5), ("y", .num 7)]))]) := by
  decide

/-
Claim C6.
-/

/-- Oracle whose reference lookups always come back empty. -/
def evalEmpty : JSVal → JSVal → JSVal → Except String JSVal := fun _ _ _ => .ok .undefined

/-- Recipe with pass-through filter over collection c, without reference rule. -/
def recipeStar : JSVal :=
  .obj (jo [("name", .str "r"), ("collection", .str "c"), ("filter", .str "*")])

/-- Store with one empty collection c. -/
def dbEmptyColl : JSVal := .obj (jo [("c", .arr .nil)])

/-- Claim C6 counterexample: the batch (one object item, then the number 7) is
not an ordered sequence of object-or-pair entries, yet modify does not return
null: the shape check inspects only the first element, so the batch is
processed and yields one outcome per item. -/
theorem C6_shape_check_counterexample :
    jxjDB.modify evalEmpty dbEmptyColl recipeStar
      (.arr (jl [.obj (jo [("ref", .str "a")]), .num 7])) (.bool true)
      = (.arr (jl [.arr (jl [.str "delete", .str "a", .null]),
                   .arr (jl [.str "delete", .str "", .null])]), dbEmptyColl) := by
  decide

/-- Oracle that throws while resolving the reference of the item whose ref is
the string boom, and finds nothing otherwise. -/
def evalBoom : JSVal → JSVal → JSVal → Except String JSVal :=
  fun _ _ b => if getF b "ref" = .str "boom" then .error "evil error" else .ok .undefined

/-- Recipe with a reference rule, pass-through filter, collection c. -/
def recipeBoom : JSVal := .obj (jo [("name", .str "r"), ("collection", .str "c"),
  ("filter", .str "*"), ("reference", .str "refexpr")])

/-- Claim C6 as amended: modify isolates per-item failures -- every item of an
accepted batch contributes exactly one results entry, a thrown exception is
recorded as a string at that item's position while the remaining items are
still processed against the store state reached so far -- and the fail-fast
null return happens exactly when the shape check fails, which inspects only
whether data is an array whose first element is object-typed (so an empty
array also yields null, and non-object entries after the first are not
rejected). -/
theorem C6_modify_isolation :
    (∀ (E : JSVal → JSVal → JSVal → Except String JSVal) (recipe defaults : JSVal)
        (items : JSList) (db : JSVal),
        JSList.length (modifyItems E recipe defaults db items).1 = JSList.length items)
  ∧ (∀ (E : JSVal → JSVal → JSVal → Except String JSVal) (db recipe data auth : JSVal),
        truthy (getF recipe "name") = true →
        authorizationCheck (getF recipe "auth") auth = true →
        verifyThat data "isArrayOfAnyObjects" = false →
        jxjDB.modify E db recipe data auth = (.null, db))
  ∧ jxjDB.modify evalBoom dbEmptyColl recipeBoom
      (.arr (jl [.obj (jo [("ref", .str "g1"), ("record", .obj .nil)])
                , .obj (jo [("ref", .str "boom"), ("record", .obj .nil)])
                , .obj (jo [("ref", .str "g2"), ("record", .obj .nil)])])) (.bool true)
      = (.arr (jl [.arr (jl [.str "add", .str "g1", .num 0])
                  , .str "evil error"
                  , .arr (jl [.str "add", .str "g2", .num 1])]),
         .obj (jo [("c", .arr (jl [.obj .nil, .obj .nil]))])) := by
  refine ⟨modifyItems_length, ?_, by decide⟩
  intro E db recipe data auth hname hauth hshape
  simp [jxjDB.modify, hname, hauth, hshape]

/-- Claim C6 witness: the fail-fast conjunct applied to a concrete
non-array batch. -/
theorem C6_modify_isolation_witness :
    jxjDB.modify evalEmpty dbEmptyColl recipeStar (.num 5) (.bool true)
      = (.null, dbEmptyColl) :=
  C6_modify_isolation.2.1 evalEmpty dbEmptyColl recipeStar (.num 5) (.bool true)
    (by decide) (by decide) (by decide)

/-
Claim C7.
-/

/-- Claim C7 counterexample: with username u and password a:b (a password
containing a colon), the decoded token is u colon a colon b; parsing the
resulting Basic header does not return the password a:b -- it returns a,
because split produces every colon chunk and the destructuring keeps only the
first two. -/
theorem C7_colon_password_counterexample :
    (fun _ : String => "u:a:b") "dTphOmI=" = "u" ++ ":" ++ "a:b"
  ∧ basic (fun _ => "u:a:b") ("Basic " ++ "dTphOmI=") ≠
      .ok { user := .str "u", pw := .str "a:b" }
  ∧ basic (fun _ => "u:a:b") ("Basic " ++ "dTphOmI=") =
      .ok { user := .str "u", pw := .str "a" } := by
  decide

/-- Claim C7 as amended: basic splits the decoded text on every colon and
keeps the first two chunks, so the round trip holds exactly for credentials
without a colon: for every decoder behaviour, token and colon-free u and p
whose decoding is u colon p, parsing the built header returns u and p.
A password containing a colon is truncated at its first colon. -/
theorem C7_basic_split (dec : String → String) (tok u p : String)
    (htok : ' ' ∉ tok.data) (hu : ':' ∉ u.data) (hp : ':' ∉ p.data)
    (hdec : dec tok = u ++ ":" ++ p) :
    basic dec ("Basic " ++ tok) = .ok { user := .str u, pw := .str p } := by
  have hmk : ∀ s : String, String.mk s.data = s := fun s => rfl
  have hsplit1 : jsSplit ("Basic " ++ tok) ' ' = ["Basic", tok] := by
    unfold jsSplit
    have h1 : ("Basic " ++ tok).data = "Basic".data ++ (' ' :: tok.data) := by
      rw [String.data_append]; rfl
    rw [h1, splitOnChar_append _ _ _ (by decide), splitOnChar_not_mem _ _ htok]
    simp [hmk]
  have hsplit2 : jsSplit (dec tok) ':' = [u, p] := by
    unfold jsSplit
    have hcolon : (":" : String).data = [':'] := rfl
    have h2 : (dec tok).data = u.data ++ (':' :: p.data) := by
      rw [hdec, String.data_append, String.data_append, hcolon]
      simp
    rw [h2, splitOnChar_append _ _ _ hu, splitOnChar_not_mem _ _ hp]
    simp [hmk]
  have hcond : (String.mk ("Basic".data.map Char.toLower) == "basic") = true := by decide
  have l0 : ∀ a b : String, listIdx [a, b] 0 = some a := fun a b => rfl
  have l1 : ∀ a b : String, listIdx [a, b] 1 = some b := fun a b => rfl
  unfold basic
  rw [hsplit1]
  simp only [l0, l1]
  rw [if_pos hcond]
  rw [hsplit2]
  simp only [l0, l1]

/-- Claim C7 witness: the amended theorem applied to the colon-free
credentials usr and pw. -/
theorem C7_basic_split_witness :
    basic (fun _ => "usr:pw") ("Basic " ++ "dXNyOnB3")
      = .ok { user := .str "usr", pw := .str "pw" } :=
  C7_basic_split (fun _ => "usr:pw") "dXNyOnB3" "usr" "pw"
    (by decide) (by decide) (by decide) rfl

/-
Claim C8.
-/

/-- A state with one file write still in flight. -/
def saveBusy : SaveState :=
  { timex := none, active := [], nextId := 0, inFlight := 1, writesStarted := 1 }

/-- Claim C8 counterexample: with one write still in progress, calling save
starts a second write immediately -- there is no save-in-progress flag in
jxjDB.save, so the claimed guard (a new save must not write while a previous
save is in progress) fails at this state. -/
theorem C8_save_overlap_counterexample :
    0 < saveBusy.inFlight
  ∧ (jxjDB.save false false saveBusy).writesStarted = saveBusy.writesStarted + 1
  ∧ (jxjDB.save false false saveBusy).inFlight = 2 := by
  decide

/-- Claim C8 as amended: each mutation cancels and restarts the single
pending debounced-save timer (when the only pending timer is the stored
handle, changed leaves exactly the one fresh timer pending -- timers never
stack), but save has no in-progress flag: for a writable store it
unconditionally starts a new file write, even while previous writes are in
flight. -/
theorem C8_debounce_restart_no_flag :
    (∀ s : SaveState, s.active = s.timex.toList →
        (jxjDB.changed s).active = [s.nextId]
      ∧ (jxjDB.changed s).timex = some s.nextId
      ∧ (jxjDB.changed s).active = ((jxjDB.changed s).timex).toList)
  ∧ (∀ s : SaveState,
        (jxjDB.save false false s).writesStarted = s.writesStarted + 1
      ∧ (jxjDB.save false false s).inFlight = s.inFlight + 1) := by
  constructor
  · intro s h
    cases ht : s.timex with
    | none => rw [ht] at h; simp [jxjDB.changed, h, ht, Option.toList]
    | some t => rw [ht] at h; simp [jxjDB.changed, h, ht, Option.toList]
  · intro s
    simp [jxjDB.save]

/-- A state whose single pending debounce timer is the stored handle 3. -/
def timerState3 : SaveState :=
  { timex := some 3, active := [3], nextId := 4, inFlight := 0, writesStarted := 0 }

/-- Claim C8 witness: the timer-restart conjunct applied to timerState3. -/
theorem C8_debounce_restart_no_flag_witness :
    (jxjDB.changed timerState3).active = [4] :=
  (C8_debounce_restart_no_flag.1 timerState3 (by decide)).1

/-
Claim C9.
-/

/-- Claim C9 counterexample: the address 210.1.2.3 is in none of the
private/loopback ranges the claim lists, the verbose flag is unset and the
host has no route, yet the probe counter is not incremented: the pattern is
anchored only at the end of the address, so its tail 10.1.2.3 matches and the
address is treated as local. -/
theorem C9_probe_iff_counterexample :
    (proxyRouter (.obj .nil) false "x.com" "210.1.2.3").served = false
  ∧ specPrivateRange "210.1.2.3" = false
  ∧ (proxyRouter (.obj .nil) false "x.com" "210.1.2.3").probeInc
      ≠ (!specPrivateRange "210.1.2.3" || false) := by
  decide

/-- Claim C9 as amended: on a request whose host resolves to no route entry,
the proxy only ends the reply (closing the connection, with no status
written), and it increments the probe counter exactly when the source address
has no suffix matching the private/loopback pattern or verbose is set; every
address that is literally in one of the four private/loopback ranges is
covered by that suffix match (but so are addresses like 210.1.2.3 whose tail
merely matches). -/
theorem C9_no_route_probe (routes : JSVal) (verbose : Bool) (hostHeader ip : String)
    (hmiss : (proxyRouter routes verbose hostHeader ip).served = false) :
    (proxyRouter routes verbose hostHeader ip).closedOnly = true
  ∧ (proxyRouter routes verbose hostHeader ip).probeInc = (!localIPMatch ip || verbose)
  ∧ (specPrivateRange ip = true → localIPMatch ip = true) := by
  refine ⟨?_, ?_, fun h => localIPMatch_of_core ip h⟩ <;>
  · simp only [proxyRouter] at hmiss ⊢
    by_cases htr : truthy (proxyRoute routes (hostOf hostHeader))
    · simp [htr] at hmiss
    · simp [htr]

/-- Claim C9 witness: the theorem applied to an unrouted request from the
public address 8.8.8.8 with verbose unset. -/
theorem C9_no_route_probe_witness :
    (proxyRouter (.obj .nil) false "x.com" "8.8.8.8").closedOnly = true :=
  (C9_no_route_probe (.obj .nil) false "x.com" "8.8.8.8" (by decide)).1

/-
Claim C10.
-/

/-- Recipe over collection c that declares no filter field. -/
def recipeNoFilter : JSVal := .obj (jo [("name", .str "r"), ("collection", .str "c")])

/-- Claim C10 counterexample: with no filter declared, the absent record
payload does not survive the safe copy as null -- jsonSafe turns it into the
empty object -- so the item takes the add path: the outcome is
(add, ref, 0), not (delete, ref, null), and the store gains a record built
from the collection defaults. -/
theorem C10_no_filter_counterexample :
    getF recipeNoFilter "filter" = .undefined
  ∧ jxjDB.modify evalEmpty dbEmptyColl recipeNoFilter
      (.arr (jl [.obj (jo [("ref", .str "x")])])) (.bool true)
      = (.arr (jl [.arr (jl [.str "add", .str "x", .num 0])]),
         .obj (jo [("c", .arr (jl [.obj .nil]))])) := by
  decide

/-- Claim C10 as amended: when the recipe filter is the pass-through star (so
the null payload survives the safe copy), an item with an absent or null
record whose reference lookup finds nothing leaves the store untouched and
still contributes the outcome tuple (delete, ref, null) -- deleting a
non-existent ref is silently reported as a delete. -/
theorem C10_delete_missing_ref (E : JSVal → JSVal → JSVal → Except String JSVal)
    (recipe defaults db d ex0 : JSVal)
    (hfil : getF recipe "filter" = .str "*")
    (hrec : jsOr (jsOr (getF d "record") (jsIdx d 1)) .null = .null)
    (href : resolveRef E recipe db (jsOr (jsOr (getF d "ref") (jsIdx d 0)) (.str ""))
      = .ok ex0)
    (hex : truthy ex0 = false) :
    processItem E recipe defaults db d
      = (.arr (jl [.str "delete", jsOr (jsOr (getF d "ref") (jsIdx d 0)) (.str ""), .null]),
         db) := by
  have h1 : jsonSafe .null (.str "*") = .ok .null := by decide
  simp only [processItem, hrec, hfil, h1, href]
  simp [jsOr, hex, getF, JSObj.lookupF, isDefinedV, isNullV]

/-- Claim C10 witness: the theorem applied to a concrete item with ref x, no
record payload, a pass-through filter and an empty reference lookup. -/
theorem C10_delete_missing_ref_witness :
    processItem evalEmpty recipeStar (.obj .nil) dbEmptyColl
      (.obj (jo [("ref", .str "x")]))
      = (.arr (jl [.str "delete", .str "x", .null]), dbEmptyColl) := by
  have h := C10_delete_missing_ref evalEmpty recipeStar (.obj .nil) dbEmptyColl
    (.obj (jo [("ref", .str "x")])) .null (by decide) (by decide) (by decide) (by decide)
  exact h.trans (by decide)
